import Mathlib

/-!
# BCX ledger core — shallow embedding

Shallow embedding of the credit-ledger server actions of the BCX
(`Bharat Carbon Exchange`) repository, together with proofs and
refutations of the specification's claims about them.

The embedding mirrors `src/actions/actions.ts` (functions `issueCredits`,
`purchaseCredits`, `retireCredits`) over the Prisma/PostgreSQL data model
declared in the repository's SQL setup (`carbon_projects`, `carbon_credits`,
`transactions`, `buyer_holdings`, `compliance_alerts`).  Database rows are
Lean structures, tables are lists, and each server action is a pure function
from a database state (plus its arguments) to a result and a new database
state.  Quantities are `Int` (the SQL columns are `INTEGER`, and nothing in
the code stops them from going negative); prices are `Rat` (SQL
`DOUBLE PRECISION`).
-/

namespace BCX

/-- `TransactionType` enum of the SQL schema. -/
inductive TxType where
  | issuance
  | transfer
  | retirement
  | purchase
deriving DecidableEq

/-- A `carbon_projects` row (the fields the ledger core reads or writes;
presentation-only columns such as `name`, `sector`, `location` are omitted). -/
structure CarbonProject where
  id : String
  developerId : String
  vintage : Nat
  totalCredits : Int
  availableCredits : Int
  pricePerCredit : Rat
deriving DecidableEq

/-- A `carbon_credits` row: one credit batch created by issuance.
`status` is `"issued"` at creation and never touched by the three core
actions, so it is omitted. -/
structure CarbonCredit where
  projectId : String
  serialNumber : String
  vintage : Nat
  quantity : Int
deriving DecidableEq

/-- A `transactions` (ledger) row. -/
structure TransactionRec where
  type : TxType
  projectId : String
  fromUserId : Option String
  toUserId : String
  quantity : Int
  pricePerCredit : Option Rat
  totalValue : Option Rat
deriving DecidableEq

/-- A `buyer_holdings` row: aggregated ownership per (buyer, project). -/
structure BuyerHolding where
  buyerId : String
  projectId : String
  quantity : Int
  avgPrice : Rat
deriving DecidableEq

/-- A `compliance_alerts` row (the fields `retireCredits` writes). -/
structure AlertRec where
  type : String
  entity : String
  message : String
  projectId : Option String
  resolved : Bool
deriving DecidableEq

/-- The database state seen by the server actions. -/
structure DB where
  projects : List CarbonProject
  credits : List CarbonCredit
  transactions : List TransactionRec
  holdings : List BuyerHolding
  alerts : List AlertRec
deriving DecidableEq

/-- Result shape of `purchaseCredits` / `retireCredits`
(`{ success, error? }`; the generated ids are not modelled). -/
structure ActionResult where
  success : Bool
  error : Option String := none
deriving DecidableEq

/-- Result shape of `issueCredits` (`{ success, serialNumbers? }`). -/
structure IssueResult where
  success : Bool
  serialNumbers : Option (List String) := none
deriving DecidableEq

/-- `prisma.carbonProject.findUnique({ where: { id } })`. -/
def findProject (db : DB) (projectId : String) : Option CarbonProject :=
  db.projects.find? (fun p => p.id == projectId)

/-- `prisma.buyerHolding.findUnique`-style lookup by the compound key
`buyerId_projectId` (used implicitly by `upsert`/`update`). -/
def findHolding (db : DB) (buyerId projectId : String) : Option BuyerHolding :=
  db.holdings.find? (fun h => h.buyerId == buyerId && h.projectId == projectId)

/-- Update the first list element satisfying `p` (a Prisma `update` against a
unique key touches exactly one row). -/
def updateFirst (p : α → Bool) (f : α → α) : List α → List α
  | [] => []
  | a :: l => if p a then f a :: l else a :: updateFirst p f l

/-! ## Serial-number generation (inside `issueCredits`)

The source builds each serial as
`` `BCX-${projectId.toUpperCase().slice(0, 6)}-${project.vintage}-${String(Date.now() + i).slice(-4)}` ``.
-/

/-- Least-significant-first decimal digits, with explicit fuel (the fuel
`n` always suffices since a number has at most `n` digits); structural
recursion so that concrete serials compute inside the kernel. -/
def decimalDigitsAux : Nat → Nat → List Nat
  | 0, _ => []
  | fuel + 1, n => if n = 0 then [] else n % 10 :: decimalDigitsAux fuel (n / 10)

/-- Decimal string of a natural number, modelling JavaScript `String(n)` for
the nonnegative integers fed to it (`Date.now() + i`). -/
def jsStringNat (n : Nat) : String :=
  if n = 0 then "0" else ⟨(decimalDigitsAux n n).reverse.map Nat.digitChar⟩

/-- JavaScript `s.slice(-4)`: the last four characters of `s`
(the whole string when it is shorter than four characters).  JS strings are
sequences of code units, modelled at the character-list level. -/
def sliceLast4 (s : String) : String :=
  ⟨s.data.drop (s.data.length - 4)⟩

/-- JavaScript `s.toUpperCase().slice(0, 6)`, at the character-list level. -/
def upperPrefix6 (s : String) : String :=
  ⟨(s.data.map Char.toUpper).take 6⟩

/-- The serial number generated for loop index `i` when `Date.now()` reads
`t` at that iteration: the model takes the already-summed timestamp `t + i`
as one argument. -/
def genSerial (projectId : String) (vintage : Nat) (tPlusI : Nat) : String :=
  "BCX-" ++ upperPrefix6 projectId ++ "-" ++ jsStringNat vintage ++ "-"
    ++ sliceLast4 (jsStringNat tPlusI)

/-! ## The three server actions -/

/-- `issueCredits(projectId, quantity)` from `src/actions/actions.ts`.
The source evaluates `Date.now()` afresh inside every loop iteration, so
the model takes the whole sequence of readings: `clock i` is the wall-clock
value observed at iteration `i`, with no assumption on it (real wall clocks
need not be monotonic), and the serial for iteration `i` uses
`clock i + i`.

Mirrors the source exactly: no quantity validation; `batchSize =
Math.min(quantity, 5)`; the loop body runs `batchSize` times (zero times
when `batchSize ≤ 0`); each batch gets `Math.floor(quantity / batchSize)`
credits; one issuance ledger row for the full `quantity` is always written
when the project exists. -/
def issueCredits (db : DB) (projectId : String) (quantity : Int) (clock : Nat → Nat) :
    IssueResult × DB :=
  match findProject db projectId with
  | none => ({ success := false }, db)
  | some project =>
    let batchSize : Int := min quantity 5
    let serials : List String :=
      (List.range batchSize.toNat).map
        (fun i => genSerial projectId project.vintage (clock i + i))
    let newCredits : List CarbonCredit :=
      serials.map (fun s =>
        { projectId := projectId, serialNumber := s, vintage := project.vintage,
          quantity := quantity / batchSize })
    let issuanceRow : TransactionRec :=
      { type := .issuance, projectId := projectId, fromUserId := none,
        toUserId := project.developerId, quantity := quantity,
        pricePerCredit := none, totalValue := none }
    ({ success := true, serialNumbers := some serials },
     { db with
        credits := db.credits ++ newCredits,
        transactions := db.transactions ++ [issuanceRow] })

/-- `purchaseCredits(projectId, quantity, buyerId)` from
`src/actions/actions.ts`, run to completion in isolation (its read and its
commit not interleaved with other requests; the interleaved behaviour is
modelled separately below).

Mirrors the source: project lookup, availability check against the value
just read, then one atomic commit appending the purchase ledger row,
decrementing `availableCredits`, and upserting the holding — whose update
branch only increments `quantity` and never touches `avgPrice`. -/
def purchaseCredits (db : DB) (projectId : String) (quantity : Int) (buyerId : String) :
    ActionResult × DB :=
  match findProject db projectId with
  | none => ({ success := false, error := some "Project not found." }, db)
  | some project =>
    if project.availableCredits < quantity then
      ({ success := false, error := some "Not enough credits available." }, db)
    else
      let totalValue : Rat := quantity * project.pricePerCredit
      let purchaseRow : TransactionRec :=
        { type := .purchase, projectId := projectId,
          fromUserId := some project.developerId, toUserId := buyerId,
          quantity := quantity, pricePerCredit := some project.pricePerCredit,
          totalValue := some totalValue }
      ({ success := true },
       { db with
          transactions := db.transactions ++ [purchaseRow],
          projects := updateFirst (fun p => p.id == projectId)
            (fun p => { p with availableCredits := p.availableCredits - quantity })
            db.projects,
          holdings :=
            match findHolding db buyerId projectId with
            | some _ =>
              updateFirst (fun h => h.buyerId == buyerId && h.projectId == projectId)
                (fun h => { h with quantity := h.quantity + quantity }) db.holdings
            | none =>
              db.holdings ++ [{ buyerId := buyerId, projectId := projectId,
                                quantity := quantity,
                                avgPrice := project.pricePerCredit }] })

/-- `retireCredits(projectId, quantity, buyerId, reason)` from
`src/actions/actions.ts`.

Mirrors the source: no check of the holding's quantity against the request.
The `prisma.$transaction` appends a retirement ledger row, decrements the
holding (Prisma's `update` throws when the row is absent, rolling the whole
transaction back, and the `catch` returns `success: false`), and records a
resolved compliance alert. -/
def retireCredits (db : DB) (projectId : String) (quantity : Int)
    (buyerId : String) (reason : String) : ActionResult × DB :=
  match findHolding db buyerId projectId with
  | none => ({ success := false }, db)
  | some _ =>
    let retireRow : TransactionRec :=
      { type := .retirement, projectId := projectId, fromUserId := none,
        toUserId := buyerId, quantity := quantity,
        pricePerCredit := none, totalValue := none }
    let alertRow : AlertRec :=
      { type := "info", entity := buyerId,
        message := toString quantity ++ " credits retired from project "
          ++ projectId ++ ". Reason: " ++ reason,
        projectId := some projectId, resolved := true }
    ({ success := true },
     { db with
        transactions := db.transactions ++ [retireRow],
        holdings := updateFirst (fun h => h.buyerId == buyerId && h.projectId == projectId)
          (fun h => { h with quantity := h.quantity - quantity }) db.holdings,
        alerts := db.alerts ++ [alertRow] })

/-! ## Derived aggregates and the conservation invariant -/

/-- Sum of holding quantities across all buyers for one project. -/
def holdingsTotal (db : DB) (projectId : String) : Int :=
  (db.holdings.map (fun h => if h.projectId == projectId then h.quantity else 0)).sum

/-- Sum of quantities over the project's retirement ledger rows: the
"retired total" of the project (the code tracks retirements only in the
ledger). -/
def retiredTotal (db : DB) (projectId : String) : Int :=
  (db.transactions.map
    (fun t => if t.type == TxType.retirement && t.projectId == projectId
              then t.quantity else 0)).sum

/-- The spec's conservation equation for one project:
`totalCredits = availableCredits + Σ holdings + Σ retired`. -/
def conservation (db : DB) (projectId : String) : Prop :=
  ∀ p, findProject db projectId = some p →
    p.totalCredits = p.availableCredits + holdingsTotal db projectId + retiredTotal db projectId

/-- Conservation for every project of the database. -/
def conservationAll (db : DB) : Prop :=
  ∀ projectId, conservation db projectId

/-! ## Helper lemmas about `find?` and `updateFirst` -/

theorem updateFirst_of_find?_eq_none (p : α → Bool) (f : α → α) :
    ∀ l : List α, l.find? p = none → updateFirst p f l = l := by
  intro l h
  induction l with
  | nil => rfl
  | cons a l ih =>
    rw [List.find?_cons] at h
    cases hpa : p a with
    | true => rw [hpa] at h; exact absurd h (by simp)
    | false =>
      rw [hpa] at h; simp only [updateFirst, hpa]
      simp only [Bool.false_eq_true, if_false]
      rw [ih h]

theorem map_sum_updateFirst (g : α → Int) (p : α → Bool) (f : α → α) :
    ∀ (l : List α) (x : α), l.find? p = some x →
      ((updateFirst p f l).map g).sum = (l.map g).sum - g x + g (f x) := by
  intro l
  induction l with
  | nil => intro x h; simp at h
  | cons a l ih =>
    intro x h
    rw [List.find?_cons] at h
    cases hpa : p a with
    | true =>
      rw [hpa] at h
      simp only [Option.some.injEq] at h
      subst h
      simp only [updateFirst, hpa, if_true, List.map_cons, List.sum_cons]
      ring
    | false =>
      rw [hpa] at h
      simp only [updateFirst, hpa, Bool.false_eq_true, if_false,
        List.map_cons, List.sum_cons]
      rw [ih x h]
      ring

theorem find?_updateFirst_self (p : α → Bool) (f : α → α)
    (hf : ∀ a, p a = true → p (f a) = true) :
    ∀ (l : List α) (x : α), l.find? p = some x →
      (updateFirst p f l).find? p = some (f x) := by
  intro l
  induction l with
  | nil => intro x h; simp at h
  | cons a l ih =>
    intro x h
    rw [List.find?_cons] at h
    cases hpa : p a with
    | true =>
      rw [hpa] at h
      simp only [Option.some.injEq] at h
      subst h
      simp only [updateFirst, hpa, if_true, List.find?_cons, hf a hpa]
    | false =>
      rw [hpa] at h
      simp only [updateFirst, hpa, Bool.false_eq_true, if_false, List.find?_cons, hpa]
      exact ih x h

theorem find?_updateFirst_of_disjoint (p q : α → Bool) (f : α → α)
    (hd : ∀ a, p a = true → q a = false ∧ q (f a) = false) :
    ∀ l : List α, (updateFirst p f l).find? q = l.find? q := by
  intro l
  induction l with
  | nil => rfl
  | cons a l ih =>
    cases hpa : p a with
    | true =>
      simp only [updateFirst, hpa, if_true, List.find?_cons,
        (hd a hpa).1, (hd a hpa).2]
    | false =>
      simp only [updateFirst, hpa, Bool.false_eq_true, if_false, List.find?_cons]
      cases hqa : q a with
      | true => rfl
      | false => exact ih

/-! ## Conservation preservation, one lemma per server action -/

theorem conservationAll_issueCredits (db : DB) (projectId : String) (quantity : Int)
    (clock : Nat → Nat) (h : conservationAll db) :
    conservationAll (issueCredits db projectId quantity clock).2 := by
  cases hfp : findProject db projectId with
  | none => simpa only [issueCredits, hfp] using h
  | some project =>
    intro pid p hp
    simp only [issueCredits, hfp] at hp
    have hc := h pid p (by simpa [findProject] using hp)
    simp only [issueCredits, hfp, holdingsTotal, retiredTotal, List.map_append,
      List.sum_append, List.map_cons, List.map_nil, List.sum_cons, List.sum_nil]
    simpa [holdingsTotal, retiredTotal] using hc

theorem txTypeBeq_purchase_retirement :
    (TxType.purchase == TxType.retirement) = false := rfl

theorem txTypeBeq_issuance_retirement :
    (TxType.issuance == TxType.retirement) = false := rfl

theorem txTypeBeq_retirement_retirement :
    (TxType.retirement == TxType.retirement) = true := rfl

theorem conservationAll_purchaseCredits (db : DB) (projectId : String) (quantity : Int)
    (buyerId : String) (h : conservationAll db) :
    conservationAll (purchaseCredits db projectId quantity buyerId).2 := by
  cases hfp : findProject db projectId with
  | none => simpa only [purchaseCredits, hfp] using h
  | some project =>
    by_cases hav : project.availableCredits < quantity
    · simpa only [purchaseCredits, hfp, if_pos hav] using h
    · have hfp' : db.projects.find? (fun q => q.id == projectId) = some project := hfp
      intro pid p hp
      simp only [purchaseCredits, hfp, if_neg hav] at hp
      simp only [purchaseCredits, hfp, if_neg hav, holdingsTotal, retiredTotal]
      simp only [findProject] at hp
      by_cases hpid : projectId = pid
      · -- the purchased project: available drops by `quantity`,
        -- the buyer's holding rises by `quantity`, retirements untouched
        subst hpid
        have hfind := find?_updateFirst_self (fun q => q.id == projectId)
          (fun q => { q with availableCredits := q.availableCredits - quantity })
          (by intro a ha; simpa using ha) db.projects project hfp'
        rw [hfind] at hp
        injection hp with hpe
        subst hpe
        have hc := h projectId project hfp
        simp only [holdingsTotal, retiredTotal] at hc
        cases hfh : findHolding db buyerId projectId with
        | none =>
          simp only [hfh, List.map_append, List.sum_append, List.map_cons,
            List.map_nil, List.sum_cons, List.sum_nil, txTypeBeq_purchase_retirement,
            Bool.false_and, Bool.false_eq_true, if_false, beq_self_eq_true,
            if_true, add_zero]
          omega
        | some hold =>
          have hfh' : db.holdings.find?
              (fun x => x.buyerId == buyerId && x.projectId == projectId) = some hold := hfh
          have hq := List.find?_some hfh'
          simp only [Bool.and_eq_true, beq_iff_eq] at hq
          have hproj : hold.projectId = projectId := hq.2
          have hsum := map_sum_updateFirst
            (fun x => if x.projectId == projectId then x.quantity else 0)
            (fun x => x.buyerId == buyerId && x.projectId == projectId)
            (fun x => { x with quantity := x.quantity + quantity })
            db.holdings hold hfh'
          simp only [hproj, beq_self_eq_true, if_true] at hsum
          simp only [hfh, hsum, List.map_append, List.sum_append, List.map_cons,
            List.map_nil, List.sum_cons, List.sum_nil, txTypeBeq_purchase_retirement,
            Bool.false_and, Bool.false_eq_true, if_false, add_zero]
          omega
      · -- any other project: every term of its equation is untouched
        have hfindo := find?_updateFirst_of_disjoint
          (fun q => q.id == projectId) (fun q => q.id == pid)
          (fun q => { q with availableCredits := q.availableCredits - quantity })
          (by intro a ha
              simp only [beq_iff_eq] at ha
              constructor <;> simp [ha, hpid]) db.projects
        rw [hfindo] at hp
        have hc := h pid p hp
        simp only [holdingsTotal, retiredTotal] at hc
        have hne : (projectId == pid) = false := by
          simp only [beq_eq_false_iff_ne, ne_eq]
          exact hpid
        cases hfh : findHolding db buyerId projectId with
        | none =>
          simp only [hfh, List.map_append, List.sum_append, List.map_cons,
            List.map_nil, List.sum_cons, List.sum_nil, txTypeBeq_purchase_retirement,
            Bool.false_and, Bool.false_eq_true, if_false, hne, add_zero]
          omega
        | some hold =>
          have hfh' : db.holdings.find?
              (fun x => x.buyerId == buyerId && x.projectId == projectId) = some hold := hfh
          have hq := List.find?_some hfh'
          simp only [Bool.and_eq_true, beq_iff_eq] at hq
          have hproj : hold.projectId = projectId := hq.2
          have hne' : (hold.projectId == pid) = false := by
            rw [hproj]; exact hne
          have hsum := map_sum_updateFirst
            (fun x => if x.projectId == pid then x.quantity else 0)
            (fun x => x.buyerId == buyerId && x.projectId == projectId)
            (fun x => { x with quantity := x.quantity + quantity })
            db.holdings hold hfh'
          simp only [hne', Bool.false_eq_true, if_false] at hsum
          simp only [hfh, hsum, List.map_append, List.sum_append, List.map_cons,
            List.map_nil, List.sum_cons, List.sum_nil, txTypeBeq_purchase_retirement,
            Bool.false_and, Bool.false_eq_true, if_false, add_zero]
          omega

theorem conservationAll_retireCredits (db : DB) (projectId : String) (quantity : Int)
    (buyerId : String) (reason : String) (h : conservationAll db) :
    conservationAll (retireCredits db projectId quantity buyerId reason).2 := by
  cases hfh : findHolding db buyerId projectId with
  | none => simpa only [retireCredits, hfh] using h
  | some hold =>
    have hfh' : db.holdings.find?
        (fun x => x.buyerId == buyerId && x.projectId == projectId) = some hold := hfh
    have hq := List.find?_some hfh'
    simp only [Bool.and_eq_true, beq_iff_eq] at hq
    have hproj : hold.projectId = projectId := hq.2
    intro pid p hp
    simp only [retireCredits, hfh] at hp
    simp only [retireCredits, hfh, holdingsTotal, retiredTotal]
    simp only [findProject] at hp
    have hc := h pid p hp
    simp only [holdingsTotal, retiredTotal] at hc
    by_cases hpid : projectId = pid
    · -- the retired project: the holding drops by `quantity` and the
      -- retirement ledger row adds `quantity` back to the retired total
      subst hpid
      have hsum := map_sum_updateFirst
        (fun x => if x.projectId == projectId then x.quantity else 0)
        (fun x => x.buyerId == buyerId && x.projectId == projectId)
        (fun x => { x with quantity := x.quantity - quantity })
        db.holdings hold hfh'
      simp only [hproj, beq_self_eq_true, if_true] at hsum
      simp only [hsum, List.map_append, List.sum_append, List.map_cons,
        List.map_nil, List.sum_cons, List.sum_nil, txTypeBeq_retirement_retirement,
        Bool.true_and, beq_self_eq_true, if_true, add_zero]
      omega
    · -- any other project: every term of its equation is untouched
      have hne : (projectId == pid) = false := by
        simp only [beq_eq_false_iff_ne, ne_eq]
        exact hpid
      have hne' : (hold.projectId == pid) = false := by
        rw [hproj]; exact hne
      have hsum := map_sum_updateFirst
        (fun x => if x.projectId == pid then x.quantity else 0)
        (fun x => x.buyerId == buyerId && x.projectId == projectId)
        (fun x => { x with quantity := x.quantity - quantity })
        db.holdings hold hfh'
      simp only [hne', Bool.false_eq_true, if_false] at hsum
      simp only [hsum, List.map_append, List.sum_append, List.map_cons,
        List.map_nil, List.sum_cons, List.sum_nil, txTypeBeq_retirement_retirement,
        Bool.true_and, hne, Bool.false_eq_true, if_false, add_zero]
      omega

/-- A successful retirement grows the project's retired total by exactly the
requested quantity. -/
theorem retiredTotal_retireCredits (db : DB) (projectId : String) (quantity : Int)
    (buyerId : String) (reason : String)
    (hs : (retireCredits db projectId quantity buyerId reason).1.success = true) :
    retiredTotal (retireCredits db projectId quantity buyerId reason).2 projectId =
      retiredTotal db projectId + quantity := by
  cases hfh : findHolding db buyerId projectId with
  | none =>
    simp only [retireCredits, hfh] at hs
    exact absurd hs (by simp)
  | some hold =>
    simp only [retireCredits, hfh, retiredTotal, List.map_append, List.sum_append,
      List.map_cons, List.map_nil, List.sum_cons, List.sum_nil,
      txTypeBeq_retirement_retirement, Bool.true_and, beq_self_eq_true, if_true,
      add_zero]

/-! ## Interleaved purchases against one project

`purchaseCredits` runs in two phases against the shared project row: the
availability read (`prisma.carbonProject.findUnique` followed by the
`availableCredits < quantity` comparison on the value just read) and, for
requests that passed the comparison, the later commit
(`prisma.$transaction` with `availableCredits: { decrement: quantity }`,
which decrements unconditionally).  Nothing in the code serializes the two
phases of concurrent requests, so an adversarial scheduler may run any
number of reads before the matching commits.  A schedule is a list of
`read`/`commit` events; `read` snapshots the current `availableCredits`,
`commit` resolves the oldest unresolved read: failure if the snapshot was
short, otherwise the unconditional decrement. -/

/-- Shared state of one project under concurrently executing purchases,
all for the same quantity `Q`: the current `availableCredits`, the
snapshots taken by reads whose commit has not happened yet, and how many
requests ended in success / in the insufficient-supply error. -/
structure ConcState where
  available : Int
  pendingReads : List Int
  successCount : Nat
  insufficientCount : Nat
deriving DecidableEq

/-- One scheduler event: a request's read phase or its commit phase. -/
inductive PhaseEvent where
  | read
  | commit
deriving DecidableEq

/-- One step of the scheduler. -/
def purchasePhase (Q : Int) (s : ConcState) : PhaseEvent → ConcState
  | .read => { s with pendingReads := s.pendingReads ++ [s.available] }
  | .commit =>
    match s.pendingReads with
    | [] => s
    | v :: rest =>
      if v < Q then
        { s with pendingReads := rest, insufficientCount := s.insufficientCount + 1 }
      else
        { available := s.available - Q, pendingReads := rest,
          successCount := s.successCount + 1,
          insufficientCount := s.insufficientCount }

/-- Run a schedule of events. -/
def runPurchases (Q : Int) (s : ConcState) (events : List PhaseEvent) : ConcState :=
  events.foldl (purchasePhase Q) s

/-- Initial state: `availableCredits = K`, no request started. -/
def initState (K : Int) : ConcState :=
  { available := K, pendingReads := [], successCount := 0, insufficientCount := 0 }

/-- The serialized schedule: each request's read is immediately followed by
its own commit. -/
def seqEvents : Nat → List PhaseEvent
  | 0 => []
  | n + 1 => .read :: .commit :: seqEvents n

/-- Under the serialized schedule, `n` equal-quantity purchases from supply
`A` produce exactly `min n ⌊A/Q⌋` successes, the rest failing on the
availability check, and leave `A - Q·min n ⌊A/Q⌋` available. -/
theorem runPurchases_seqEvents (Q : Int) (hQ : 0 < Q) :
    ∀ (n : Nat) (A : Int) (c f : Nat), 0 ≤ A →
      runPurchases Q ⟨A, [], c, f⟩ (seqEvents n) =
        ⟨A - Q * min n (A / Q).toNat, [],
         c + min n (A / Q).toNat, f + (n - min n (A / Q).toNat)⟩ := by
  intro n
  induction n with
  | zero => intro A c f hA; simp [seqEvents, runPurchases]
  | succ n ih =>
    intro A c f hA
    by_cases hav : A < Q
    · have hdiv : A / Q = 0 := Int.ediv_eq_zero_of_lt hA hav
      have hrun : runPurchases Q ⟨A, [], c, f⟩ (seqEvents (n + 1)) =
          runPurchases Q ⟨A, [], c, f + 1⟩ (seqEvents n) := by
        simp [seqEvents, runPurchases, purchasePhase, if_pos hav]
      rw [hrun, ih A c (f + 1) hA, hdiv]
      simp only [Int.toNat_zero, Nat.min_zero, Nat.sub_zero, Nat.cast_zero,
        mul_zero, sub_zero, Nat.add_zero, ConcState.mk.injEq, and_true, true_and]
      omega
    · have hQA : Q ≤ A := le_of_not_lt hav
      have hA' : 0 ≤ A - Q := by omega
      have hdivpos : 1 ≤ A / Q := by
        rw [Int.le_ediv_iff_mul_le hQ]; omega
      have hdiv : (A - Q) / Q = A / Q - 1 := by
        have := Int.add_mul_ediv_right A (-1) (ne_of_gt hQ)
        simpa [sub_eq_add_neg, neg_mul, one_mul] using this
      have hrun : runPurchases Q ⟨A, [], c, f⟩ (seqEvents (n + 1)) =
          runPurchases Q ⟨A - Q, [], c + 1, f⟩ (seqEvents n) := by
        simp [seqEvents, runPurchases, purchasePhase, if_neg hav]
      rw [hrun, ih (A - Q) (c + 1) f hA', hdiv]
      have htn : ((A / Q - 1).toNat) = (A / Q).toNat - 1 := by omega
      have htn1 : 1 ≤ (A / Q).toNat := by omega
      rw [htn]
      have hmin : min n ((A / Q).toNat - 1) + 1 = min (n + 1) (A / Q).toNat := by omega
      simp only [ConcState.mk.injEq]
      refine ⟨?_, by simp, by omega, by omega⟩
      have hqm : Q * ((min (n + 1) (A / Q).toNat : Nat) : Int) =
          Q * ((min n ((A / Q).toNat - 1) : Nat) : Int) + Q := by
        rw [← hmin]; push_cast; ring
      rw [hqm]; ring

/-! ## Serial-number structure: the last character is the timestamp mod 10 -/

theorem getLast?_drop_of_lt {α : Type} :
    ∀ (l : List α) (k : Nat), k < l.length → (l.drop k).getLast? = l.getLast? := by
  intro l
  induction l with
  | nil => intro k hk; simp at hk
  | cons a t ih =>
    intro k hk
    cases k with
    | zero => rfl
    | succ k =>
      simp only [List.length_cons] at hk
      have hkt : k < t.length := by omega
      have ht : t ≠ [] := by
        intro h
        rw [h] at hkt
        simp at hkt
      rw [List.drop_succ_cons, ih k hkt]
      obtain ⟨b, t', rfl⟩ := List.exists_cons_of_ne_nil ht
      rw [List.getLast?_cons_cons]

theorem decimalDigitsAux_cons (fuel n : Nat) (hn : n ≠ 0) :
    decimalDigitsAux (fuel + 1) n = n % 10 :: decimalDigitsAux fuel (n / 10) := by
  simp [decimalDigitsAux, hn]

theorem jsStringNat_data (n : Nat) (h : n ≠ 0) :
    (jsStringNat n).data = (decimalDigitsAux n n).reverse.map Nat.digitChar := by
  simp only [jsStringNat, if_neg h]

theorem jsStringNat_data_ne_nil (n : Nat) : (jsStringNat n).data ≠ [] := by
  by_cases h : n = 0
  · subst h
    simp [jsStringNat]
  · rw [jsStringNat_data n h]
    obtain ⟨m, rfl⟩ := Nat.exists_eq_succ_of_ne_zero h
    rw [decimalDigitsAux_cons m (m + 1) h]
    simp

theorem getLast?_jsStringNat (n : Nat) :
    (jsStringNat n).data.getLast? = some (Nat.digitChar (n % 10)) := by
  by_cases h : n = 0
  · subst h
    simp only [jsStringNat, if_pos rfl]
    decide
  · rw [jsStringNat_data n h, List.map_reverse, List.getLast?_reverse]
    obtain ⟨m, rfl⟩ := Nat.exists_eq_succ_of_ne_zero h
    rw [decimalDigitsAux_cons m (m + 1) h]
    simp

theorem getLast?_sliceLast4 (s : String) (hs : s.data ≠ []) :
    (sliceLast4 s).data.getLast? = s.data.getLast? := by
  apply getLast?_drop_of_lt
  have hpos : 0 < s.data.length := List.length_pos.mpr hs
  omega

/-- The last character of every generated serial is the decimal digit of the
timestamp argument modulo 10. -/
theorem getLast?_genSerial (projectId : String) (vintage : Nat) (t : Nat) :
    (genSerial projectId vintage t).data.getLast? = some (Nat.digitChar (t % 10)) := by
  have hne : (sliceLast4 (jsStringNat t)).data ≠ [] := by
    intro h
    have := getLast?_sliceLast4 (jsStringNat t) (jsStringNat_data_ne_nil t)
    rw [h, getLast?_jsStringNat] at this
    simp at this
  simp only [genSerial, String.data_append]
  rw [List.getLast?_append_of_ne_nil _ hne,
    getLast?_sliceLast4 (jsStringNat t) (jsStringNat_data_ne_nil t),
    getLast?_jsStringNat]

theorem digitChar_mod_ten_inj (a b : Nat)
    (h : Nat.digitChar (a % 10) = Nat.digitChar (b % 10)) : a % 10 = b % 10 := by
  have hfin : ∀ x y : Fin 10, Nat.digitChar x.val = Nat.digitChar y.val → x = y := by
    decide
  have ha : a % 10 < 10 := Nat.mod_lt _ (by norm_num)
  have hb : b % 10 < 10 := Nat.mod_lt _ (by norm_num)
  have := hfin ⟨a % 10, ha⟩ ⟨b % 10, hb⟩ h
  exact congrArg Fin.val this

/-- Serials generated inside one `issueCredits` call (timestamps `now + i`,
`i` below the batch count, which never exceeds 5) are pairwise distinct. -/
theorem genSerial_inj_in_call (projectId : String) (vintage : Nat) (now i j : Nat)
    (hi : i < 5) (hj : j < 5)
    (h : genSerial projectId vintage (now + i) = genSerial projectId vintage (now + j)) :
    i = j := by
  have h1 := getLast?_genSerial projectId vintage (now + i)
  have h2 := getLast?_genSerial projectId vintage (now + j)
  rw [h, h2] at h1
  have hmod := digitChar_mod_ten_inj (now + j) (now + i)
    (Option.some_injective _ h1)
  omega

/-! ## Integrity score (`src/lib/integrity-score.ts`)

The heuristic score is modelled over the reals.  Two external effects are
parameters of the model: the JavaScript regex engine (`pattern.test(text)`)
appears as an arbitrary oracle `test : String → String → Bool` applied to
the pattern's source text, and each of the six `Math.random()` draws as an
arbitrary real number.  `Math.round` on the clamped (finite, positive)
values used here is `⌊x + 1/2⌋`. -/

/-- A keyword rule: regex pattern sources plus the points per match. -/
structure KeywordRule where
  patterns : List String
  weight : ℝ

noncomputable def ADDITIONALITY_RULES : List KeywordRule :=
  [⟨["\\bnew\\b", "\\binnovati", "\\bfirst[- ]of[- ]its[- ]kind\\b"], 8⟩,
   ⟨["\\badditionality\\b", "\\bbeyond[- ]?bau\\b", "\\bbusiness[- ]as[- ]usual\\b"], 10⟩,
   ⟨["\\bnovel\\b", "\\bpioneering\\b", "\\bbreakthrough\\b"], 7⟩,
   ⟨["\\brenewable\\b", "\\bclean\\s?energy\\b"], 5⟩]

noncomputable def PERMANENCE_RULES : List KeywordRule :=
  [⟨["\\blong[- ]term\\b", "\\bpermanent\\b", "\\b100\\s?years?\\b", "\\bdurable\\b"], 9⟩,
   ⟨["\\bpermanence\\b", "\\birreversib"], 10⟩,
   ⟨["\\bsequestration\\b", "\\bstorage\\b", "\\bgeologic"], 6⟩,
   ⟨["\\bafforestation\\b", "\\breforestation\\b"], 5⟩]

noncomputable def MRV_RULES : List KeywordRule :=
  [⟨["\\baudit", "\\bverification\\b", "\\bISO\\b", "\\bmonitoring\\b", "\\bMRV\\b"], 8⟩,
   ⟨["\\bthird[- ]party\\b", "\\bindependent\\b"], 7⟩,
   ⟨["\\bsatellite\\b", "\\bremote\\s?sensing\\b", "\\bIoT\\b"], 6⟩,
   ⟨["\\breport", "\\btransparent", "\\baccountab"], 5⟩]

noncomputable def LEAKAGE_RULES : List KeywordRule :=
  [⟨["\\brisk\\b", "\\bdeforestation\\s?shift\\b", "\\bleakage\\s?control\\b"], 9⟩,
   ⟨["\\bleakage\\b", "\\bdisplacement\\b"], 8⟩,
   ⟨["\\bbuffer\\b", "\\bsafeguard", "\\bmitigation\\b"], 6⟩,
   ⟨["\\bboundary\\b", "\\bbaseline\\b"], 4⟩]

noncomputable def REGISTRY_QUALITY_RULES : List KeywordRule :=
  [⟨["\\bVerra\\b", "\\bGold\\s?Standard\\b", "\\bregistry\\b", "\\btracking\\b"], 9⟩,
   ⟨["\\bACR\\b", "\\bCAR\\b", "\\bPlan\\s?Vivo\\b"], 8⟩,
   ⟨["\\bserial\\s?number", "\\bretire", "\\bcancel"], 5⟩,
   ⟨["\\bcertif", "\\baccredit"], 6⟩]

noncomputable def CORRESPONDING_ADJUSTMENT_RULES : List KeywordRule :=
  [⟨["\\bParis\\s?Agreement\\b", "\\bdouble\\s?counting\\b", "\\bcorresponding\\s?adjustment\\b"], 10⟩,
   ⟨["\\bArticle\\s?6\\b", "\\bNDC\\b", "\\bITMO\\b"], 9⟩,
   ⟨["\\bhost\\s?country\\b", "\\bletter\\s?of\\s?(authorization|approval)\\b"], 7⟩,
   ⟨["\\bsovereign", "\\bjurisdiction"], 4⟩]

/-- `PARAMETER_WEIGHTS` record of the source. -/
structure ParamWeights where
  additionality : ℝ
  permanence : ℝ
  mrv : ℝ
  leakage : ℝ
  registryQuality : ℝ
  correspondingAdjustment : ℝ

noncomputable def PARAMETER_WEIGHTS : ParamWeights :=
  ⟨0.25, 0.20, 0.20, 0.15, 0.10, 0.10⟩

noncomputable def BASE_SCORE : ℝ := 45
noncomputable def MIN_SCORE : ℝ := 30
noncomputable def MAX_SCORE : ℝ := 95
noncomputable def JITTER_RANGE : ℝ := 10
noncomputable def KEYWORD_SCALING : ℝ := 1.20

/-- `evaluateRules`: base score plus scaled points for every matched
pattern, the regex engine abstracted as `test`. -/
noncomputable def evaluateRules (test : String → String → Bool) (text : String)
    (rules : List KeywordRule) : ℝ :=
  BASE_SCORE +
    (rules.map (fun rule =>
      ((rule.patterns.filter (fun pat => test pat text)).length : ℝ) * rule.weight)).sum
      * KEYWORD_SCALING

/-- `applyJitter(value)` with the `Math.random()` draw `rnd` made explicit:
`value + (rnd * range − range/2)`. -/
noncomputable def applyJitter (value : ℝ) (rnd : ℝ) (range : ℝ) : ℝ :=
  value + (rnd * range - range / 2)

/-- `clampAndRound(value, min, max)`: clamp then round to nearest. -/
noncomputable def clampAndRound (value lo hi : ℝ) : ℤ :=
  ⌊min hi (max lo value) + 1 / 2⌋

/-- The six returned `parameters`, each an integer. -/
structure IntegrityParameters where
  additionality : ℤ
  permanence : ℤ
  mrv : ℤ
  leakage : ℤ
  registryQuality : ℤ
  correspondingAdjustment : ℤ

/-- `IntegrityScoreResult`. -/
structure IntegrityScoreResult where
  score : ℤ
  parameters : IntegrityParameters

/-- `calculateIntegrityScoreFromDescription`, with the regex oracle and the
six random draws (one per parameter, in source order) as explicit inputs. -/
noncomputable def calculateIntegrityScoreFromDescription
    (test : String → String → Bool) (rnd : Fin 6 → ℝ) (description : String) :
    IntegrityScoreResult :=
  let text := description
  let rawAdditionality := evaluateRules test text ADDITIONALITY_RULES
  let rawPermanence := evaluateRules test text PERMANENCE_RULES
  let rawMrv := evaluateRules test text MRV_RULES
  let rawLeakage := evaluateRules test text LEAKAGE_RULES
  let rawRegistryQuality := evaluateRules test text REGISTRY_QUALITY_RULES
  let rawCA := evaluateRules test text CORRESPONDING_ADJUSTMENT_RULES
  let parameters : IntegrityParameters :=
    { additionality :=
        clampAndRound (applyJitter rawAdditionality (rnd 0) JITTER_RANGE) MIN_SCORE MAX_SCORE,
      permanence :=
        clampAndRound (applyJitter rawPermanence (rnd 1) JITTER_RANGE) MIN_SCORE MAX_SCORE,
      mrv :=
        clampAndRound (applyJitter rawMrv (rnd 2) JITTER_RANGE) MIN_SCORE MAX_SCORE,
      leakage :=
        clampAndRound (applyJitter rawLeakage (rnd 3) JITTER_RANGE) MIN_SCORE MAX_SCORE,
      registryQuality :=
        clampAndRound (applyJitter rawRegistryQuality (rnd 4) JITTER_RANGE) MIN_SCORE MAX_SCORE,
      correspondingAdjustment :=
        clampAndRound (applyJitter rawCA (rnd 5) JITTER_RANGE) MIN_SCORE MAX_SCORE }
  let weightedSum : ℝ :=
    (parameters.additionality : ℝ) * PARAMETER_WEIGHTS.additionality +
    (parameters.permanence : ℝ) * PARAMETER_WEIGHTS.permanence +
    (parameters.mrv : ℝ) * PARAMETER_WEIGHTS.mrv +
    (parameters.leakage : ℝ) * PARAMETER_WEIGHTS.leakage +
    (parameters.registryQuality : ℝ) * PARAMETER_WEIGHTS.registryQuality +
    (parameters.correspondingAdjustment : ℝ) * PARAMETER_WEIGHTS.correspondingAdjustment
  let adjustedScore : ℝ := BASE_SCORE + weightedSum ^ (0.9 : ℝ) * 0.6
  let score : ℤ := ⌊min MAX_SCORE (max MIN_SCORE adjustedScore) + 1 / 2⌋
  { score := score, parameters := parameters }

/-- Rounding after clamping to `[30, 95]` always lands in `[30, 95]`. -/
theorem floor_clamp_bounds (z : ℝ) :
    30 ≤ ⌊min (95 : ℝ) (max (30 : ℝ) z) + 1 / 2⌋ ∧
      ⌊min (95 : ℝ) (max (30 : ℝ) z) + 1 / 2⌋ ≤ 95 := by
  have hlo : (30 : ℝ) ≤ min (95 : ℝ) (max (30 : ℝ) z) := by
    apply le_min (by norm_num) (le_max_left _ _)
  have hhi : min (95 : ℝ) (max (30 : ℝ) z) ≤ 95 := min_le_left _ _
  constructor
  · rw [Int.le_floor]
    push_cast
    linarith
  · have : ⌊min (95 : ℝ) (max (30 : ℝ) z) + 1 / 2⌋ < 96 := by
      rw [Int.floor_lt]
      push_cast
      linarith
    omega

/-! ## Concrete states for witnesses and counterexamples -/

/-- A project with total 100, available 60, price 10. -/
def projP1 : CarbonProject :=
  { id := "P1", developerId := "D1", vintage := 2024,
    totalCredits := 100, availableCredits := 60, pricePerCredit := 10 }

/-- Buyer B1 holds 30 credits of P1 at average price 10. -/
def holdB1P1 : BuyerHolding :=
  { buyerId := "B1", projectId := "P1", quantity := 30, avgPrice := 10 }

/-- A past retirement of 10 credits of P1 by B1. -/
def retRowP1 : TransactionRec :=
  { type := .retirement, projectId := "P1", fromUserId := none,
    toUserId := "B1", quantity := 10, pricePerCredit := none, totalValue := none }

/-- A state satisfying conservation: `100 = 60 + 30 + 10`. -/
def dbMain : DB :=
  { projects := [projP1], credits := [], transactions := [retRowP1],
    holdings := [holdB1P1], alerts := [] }

/-- The spec's worked example: total 10000, available 6000 after the first
purchase, price raised to 200; B1 holds 4000 at average price 100. -/
def projP2 : CarbonProject :=
  { id := "P2", developerId := "D1", vintage := 2024,
    totalCredits := 10000, availableCredits := 6000, pricePerCredit := 200 }

def holdB1P2 : BuyerHolding :=
  { buyerId := "B1", projectId := "P2", quantity := 4000, avgPrice := 100 }

def dbSpecExample : DB :=
  { projects := [projP2], credits := [], transactions := [],
    holdings := [holdB1P2], alerts := [] }

/-- A fresh state with one project and empty tables, for issuance claims. -/
def dbIssue : DB :=
  { projects := [projP1], credits := [], transactions := [], holdings := [], alerts := [] }

theorem conservationAll_dbMain : conservationAll dbMain := by
  intro pid p hp
  by_cases hb : pid = "P1"
  · subst hb
    have hfind : findProject dbMain "P1" = some projP1 := by decide
    rw [hfind] at hp
    injection hp with hpe
    subst hpe
    decide
  · have hne : (projP1.id == pid) = false :=
      beq_eq_false_iff_ne.mpr (fun he => hb he.symm)
    have hfind : findProject dbMain pid = none := by
      simp only [findProject, dbMain, List.find?_cons, hne]
      rfl
    rw [hfind] at hp
    exact absurd hp (by simp)

/-! ## The claims -/

/-- **C1.** For every project, after every committed Issue, Purchase, or
Retire operation on a state satisfying the conservation invariant
`totalCredits = availableCredits + Σ holding quantities + Σ retired
quantities`, the invariant still holds for every project; and after a
successful Retire of quantity `q` the project's retired total has grown by
exactly `q`, so the equation still balances. -/
theorem claim_C1 (db : DB) (projectId : String) (quantity : Int) (clock : Nat → Nat)
    (buyerId reason : String) (h : conservationAll db) :
    conservationAll (issueCredits db projectId quantity clock).2 ∧
    conservationAll (purchaseCredits db projectId quantity buyerId).2 ∧
    conservationAll (retireCredits db projectId quantity buyerId reason).2 ∧
    ((retireCredits db projectId quantity buyerId reason).1.success = true →
      retiredTotal (retireCredits db projectId quantity buyerId reason).2 projectId =
        retiredTotal db projectId + quantity) :=
  ⟨conservationAll_issueCredits db projectId quantity clock h,
   conservationAll_purchaseCredits db projectId quantity buyerId h,
   conservationAll_retireCredits db projectId quantity buyerId reason h,
   retiredTotal_retireCredits db projectId quantity buyerId reason⟩

theorem claim_C1_witness :
    conservationAll dbMain ∧
    (conservationAll (issueCredits dbMain "P1" 7 (fun _ => 1000)).2 ∧
     conservationAll (purchaseCredits dbMain "P1" 7 "B1").2 ∧
     conservationAll (retireCredits dbMain "P1" 7 "B1" "audit").2 ∧
     ((retireCredits dbMain "P1" 7 "B1" "audit").1.success = true →
       retiredTotal (retireCredits dbMain "P1" 7 "B1" "audit").2 "P1" =
         retiredTotal dbMain "P1" + 7)) :=
  ⟨conservationAll_dbMain,
   claim_C1 dbMain "P1" 7 (fun _ => 1000) "B1" "audit" conservationAll_dbMain⟩

/-- **C9.** `retireCredits` never touches the `carbon_projects` table, so a
successful (indeed, any) retirement leaves every project's `totalCredits`,
`availableCredits` and `pricePerCredit` unchanged — retired credits never
return to the available supply. -/
theorem claim_C9 (db : DB) (projectId : String) (quantity : Int)
    (buyerId reason : String) :
    (retireCredits db projectId quantity buyerId reason).2.projects = db.projects := by
  cases hfh : findHolding db buyerId projectId <;>
    simp [retireCredits, hfh]

/-- **C7.** A purchase of more than the available credits fails with the
insufficient-supply error and returns the state unchanged; a purchase
against an absent project fails with the not-found error and returns the
state unchanged.  (In this serialized embedding the availability check and
the commit see the same state.) -/
theorem claim_C7 (db : DB) (projectId : String) (quantity : Int) (buyerId : String) :
    (findProject db projectId = none →
      purchaseCredits db projectId quantity buyerId =
        ({ success := false, error := some "Project not found." }, db)) ∧
    (∀ project, findProject db projectId = some project →
      project.availableCredits < quantity →
      purchaseCredits db projectId quantity buyerId =
        ({ success := false, error := some "Not enough credits available." }, db)) := by
  constructor
  · intro hfp
    simp [purchaseCredits, hfp]
  · intro project hfp hav
    simp [purchaseCredits, hfp, hav]

theorem claim_C7_witness :
    findProject dbMain "NOPE" = none ∧
    purchaseCredits dbMain "NOPE" 5 "B1" =
      ({ success := false, error := some "Project not found." }, dbMain) ∧
    findProject dbMain "P1" = some projP1 ∧
    projP1.availableCredits < 1000 ∧
    purchaseCredits dbMain "P1" 1000 "B1" =
      ({ success := false, error := some "Not enough credits available." }, dbMain) :=
  ⟨by decide, (claim_C7 dbMain "NOPE" 5 "B1").1 (by decide), by decide, by decide,
   (claim_C7 dbMain "P1" 1000 "B1").2 projP1 (by decide) (by decide)⟩

/-- **C4 counterexample.** The spec's own example: B1 holds 4000 at average
price 100, then buys 1000 more at posted price 200.  The claim demands the
weighted average `(4000·100 + 1000·200)/5000 = 120`; the code's upsert
update branch only increments `quantity`, so `avgPrice` stays `100`. -/
theorem claim_C4_counterexample :
    ((purchaseCredits dbSpecExample "P2" 1000 "B1").1.success = true) ∧
    ((findHolding (purchaseCredits dbSpecExample "P2" 1000 "B1").2 "B1" "P2").map
        BuyerHolding.quantity = some 5000) ∧
    ((findHolding (purchaseCredits dbSpecExample "P2" 1000 "B1").2 "B1" "P2").map
        BuyerHolding.avgPrice = some 100) ∧
    ¬ ((findHolding (purchaseCredits dbSpecExample "P2" 1000 "B1").2 "B1" "P2").map
        BuyerHolding.avgPrice = some 120) := by
  decide

/-- **C4 amended.** When a holding already exists, a successful purchase
increments its quantity by the purchased amount and leaves `avgPrice`
exactly as it was — the volume-weighted average of the claim is never
computed (`avgPrice` is set to the posted price only when the holding is
first created). -/
theorem claim_C4_amended (db : DB) (projectId : String) (quantity : Int)
    (buyerId : String) (project : CarbonProject) (hold : BuyerHolding)
    (hfp : findProject db projectId = some project)
    (hav : ¬ project.availableCredits < quantity)
    (hfh : findHolding db buyerId projectId = some hold) :
    (purchaseCredits db projectId quantity buyerId).1.success = true ∧
    findHolding (purchaseCredits db projectId quantity buyerId).2 buyerId projectId =
      some { hold with quantity := hold.quantity + quantity } := by
  have hfh' : db.holdings.find?
      (fun x => x.buyerId == buyerId && x.projectId == projectId) = some hold := hfh
  constructor
  · simp [purchaseCredits, hfp, hav]
  · simp only [purchaseCredits, hfp, if_neg hav, hfh]
    simp only [findHolding]
    exact find?_updateFirst_self
      (fun x => x.buyerId == buyerId && x.projectId == projectId)
      (fun x => { x with quantity := x.quantity + quantity })
      (by intro a ha; simpa using ha) db.holdings hold hfh'

theorem claim_C4_amended_witness :
    findProject dbSpecExample "P2" = some projP2 ∧
    ¬ projP2.availableCredits < 1000 ∧
    findHolding dbSpecExample "B1" "P2" = some holdB1P2 ∧
    ((purchaseCredits dbSpecExample "P2" 1000 "B1").1.success = true ∧
      findHolding (purchaseCredits dbSpecExample "P2" 1000 "B1").2 "B1" "P2" =
        some { holdB1P2 with quantity := holdB1P2.quantity + 1000 }) :=
  ⟨by decide, by decide, by decide,
   claim_C4_amended dbSpecExample "P2" 1000 "B1" projP2 holdB1P2
     (by decide) (by decide) (by decide)⟩

/-- **C5 counterexample.** B1 holds 30 credits of P1; retiring 100 is
claimed to fail with `InsufficientHoldings` and change nothing.  The code
performs no quantity check: the call succeeds and drives the holding to
`30 − 100 = −70 < 0`. -/
theorem claim_C5_counterexample :
    ((retireCredits dbMain "P1" 100 "B1" "overdraw").1.success = true) ∧
    ((findHolding (retireCredits dbMain "P1" 100 "B1" "overdraw").2 "B1" "P1").map
        BuyerHolding.quantity = some (-70)) := by
  decide

/-- **C5 amended.** `retireCredits` fails (returning the state unchanged)
exactly when no holding row exists for the buyer and project; whenever a
holding row exists it succeeds for *any* requested quantity — without
comparing it to the held amount — and decrements the holding by that
quantity, possibly below zero. -/
theorem claim_C5_amended (db : DB) (projectId : String) (quantity : Int)
    (buyerId reason : String) :
    (findHolding db buyerId projectId = none →
      retireCredits db projectId quantity buyerId reason =
        ({ success := false }, db)) ∧
    (∀ hold, findHolding db buyerId projectId = some hold →
      (retireCredits db projectId quantity buyerId reason).1.success = true ∧
      findHolding (retireCredits db projectId quantity buyerId reason).2
          buyerId projectId =
        some { hold with quantity := hold.quantity - quantity }) := by
  constructor
  · intro hfh
    simp [retireCredits, hfh]
  · intro hold hfh
    have hfh' : db.holdings.find?
        (fun x => x.buyerId == buyerId && x.projectId == projectId) = some hold := hfh
    constructor
    · simp [retireCredits, hfh]
    · simp only [retireCredits, hfh]
      simp only [findHolding]
      exact find?_updateFirst_self
        (fun x => x.buyerId == buyerId && x.projectId == projectId)
        (fun x => { x with quantity := x.quantity - quantity })
        (by intro a ha; simpa using ha) db.holdings hold hfh'

theorem claim_C5_amended_witness :
    findHolding dbMain "B1" "P1" = some holdB1P1 ∧
    ((retireCredits dbMain "P1" 5 "B1" "voluntary").1.success = true ∧
      findHolding (retireCredits dbMain "P1" 5 "B1" "voluntary").2 "B1" "P1" =
        some { holdB1P1 with quantity := holdB1P1.quantity - 5 }) :=
  ⟨by decide, (claim_C5_amended dbMain "P1" 5 "B1" "voluntary").2 holdB1P1 (by decide)⟩

/-- **C6 counterexample.** Issuing quantity 0 against an existing project is
claimed to fail with `InvalidQuantity` and write nothing.  The code has no
quantity validation: the call succeeds, creates no batch, and writes an
issuance ledger row of quantity 0 — so not every ledger row has positive
quantity. -/
theorem claim_C6_counterexample :
    ((issueCredits dbIssue "P1" 0 (fun _ => 1000)).1.success = true) ∧
    ((issueCredits dbIssue "P1" 0 (fun _ => 1000)).2.credits = []) ∧
    ((issueCredits dbIssue "P1" 0 (fun _ => 1000)).2.transactions.map TransactionRec.quantity
      = [0]) := by
  decide

/-- **C6 amended.** For `quantity ≤ 0` and an existing project,
`issueCredits` succeeds with an empty serial list, creates no credit batch,
and still appends an issuance ledger row carrying the non-positive
quantity. -/
theorem claim_C6_amended (db : DB) (projectId : String) (quantity : Int)
    (clock : Nat → Nat)
    (project : CarbonProject) (hfp : findProject db projectId = some project)
    (hq : quantity ≤ 0) :
    (issueCredits db projectId quantity clock).1 =
      { success := true, serialNumbers := some [] } ∧
    (issueCredits db projectId quantity clock).2.credits = db.credits ∧
    (issueCredits db projectId quantity clock).2.transactions =
      db.transactions ++
        [{ type := .issuance, projectId := projectId, fromUserId := none,
           toUserId := project.developerId, quantity := quantity,
           pricePerCredit := none, totalValue := none }] := by
  have hbs : (min quantity 5).toNat = 0 := by
    have hmq : min quantity 5 ≤ 0 := le_trans (min_le_left _ _) hq
    omega
  simp [issueCredits, hfp, hbs]

theorem claim_C6_amended_witness :
    findProject dbIssue "P1" = some projP1 ∧ ((-3 : Int) ≤ 0) ∧
    ((issueCredits dbIssue "P1" (-3) (fun _ => 1000)).1 =
        { success := true, serialNumbers := some [] } ∧
      (issueCredits dbIssue "P1" (-3) (fun _ => 1000)).2.credits = dbIssue.credits ∧
      (issueCredits dbIssue "P1" (-3) (fun _ => 1000)).2.transactions =
        dbIssue.transactions ++
          [{ type := .issuance, projectId := "P1", fromUserId := none,
             toUserId := projP1.developerId, quantity := -3,
             pricePerCredit := none, totalValue := none }]) :=
  ⟨by decide, by decide,
   claim_C6_amended dbIssue "P1" (-3) (fun _ => 1000) projP1 (by decide) (by decide)⟩

/-- **C3 counterexample.** Issuing 7 credits: `batchSize = min(7,5) = 5`,
each batch gets `⌊7/5⌋ = 1` credit, so the batches sum to 5, not 7 — two
credits are silently lost to rounding (there is no remainder
distribution). -/
theorem claim_C3_counterexample :
    ((issueCredits dbIssue "P1" 7 (fun _ => 1000)).1.success = true) ∧
    (((issueCredits dbIssue "P1" 7 (fun _ => 1000)).2.credits.map CarbonCredit.quantity).sum = 5) ∧
    ((5 : Int) ≠ 7) := by
  decide

theorem sum_map_eq_length_mul {α : Type} (g : α → Int) (c : Int) :
    ∀ l : List α, (∀ a ∈ l, g a = c) → (l.map g).sum = l.length * c := by
  intro l
  induction l with
  | nil => intro _; simp
  | cons a t ih =>
    intro hg
    simp only [List.map_cons, List.sum_cons, List.length_cons]
    rw [hg a (by simp), ih (fun x hx => hg x (by simp [hx]))]
    push_cast
    ring

/-- **C3 amended.** For an existing project and `quantity > 0`, the created
batches sum to `min(quantity,5) · ⌊quantity / min(quantity,5)⌋` — equal to
`quantity` only when `quantity ≤ 5` or `5 ∣ quantity`; otherwise the
remainder `quantity mod min(quantity,5)` is lost. -/
theorem claim_C3_amended (db : DB) (projectId : String) (quantity : Int)
    (clock : Nat → Nat)
    (project : CarbonProject) (hfp : findProject db projectId = some project)
    (hq : 0 < quantity) :
    ((issueCredits db projectId quantity clock).2.credits.map CarbonCredit.quantity).sum =
      (db.credits.map CarbonCredit.quantity).sum +
        min quantity 5 * (quantity / min quantity 5) := by
  have hbs : 0 < min quantity 5 := lt_min hq (by norm_num)
  simp only [issueCredits, hfp, List.map_append, List.sum_append]
  simp only [List.map_map]
  congr 1
  have hconstsum := sum_map_eq_length_mul (fun _ : Nat => quantity / min quantity 5)
    (quantity / min quantity 5) (List.range (min quantity 5).toNat) (fun a _ => rfl)
  rw [List.length_range] at hconstsum
  exact hconstsum.trans (by rw [Int.toNat_of_nonneg hbs.le])

theorem claim_C3_amended_witness :
    findProject dbIssue "P1" = some projP1 ∧ ((0 : Int) < 12) ∧
    ((issueCredits dbIssue "P1" 12 (fun _ => 1000)).2.credits.map CarbonCredit.quantity).sum =
      (dbIssue.credits.map CarbonCredit.quantity).sum +
        min (12 : Int) 5 * (12 / min (12 : Int) 5) :=
  ⟨by decide, by decide,
   claim_C3_amended dbIssue "P1" 12 (fun _ => 1000) projP1 (by decide) (by decide)⟩

/-- The result value of `issueCredits` (success flag and serial numbers)
depends only on the `carbon_projects` table: no existing serial is ever
consulted. -/
theorem issueCredits_fst_eq_of_projects_eq (db db' : DB) (projectId : String)
    (quantity : Int) (clock : Nat → Nat) (h : db.projects = db'.projects) :
    (issueCredits db projectId quantity clock).1 =
      (issueCredits db' projectId quantity clock).1 := by
  have hfp : findProject db projectId = findProject db' projectId := by
    simp only [findProject, h]
  cases hd : findProject db' projectId with
  | none => simp only [issueCredits, hfp, hd]
  | some project => simp only [issueCredits, hfp, hd]

/-- The five serials both clashing issuance calls generate. -/
def clashSerials : List String :=
  ["BCX-P1-2024-0000", "BCX-P1-2024-0001", "BCX-P1-2024-0002",
   "BCX-P1-2024-0003", "BCX-P1-2024-0004"]

/-- **C8 counterexample.** The serial generator keeps only the last four
decimal digits of the per-iteration `Date.now()` reading and performs no
uniqueness check against existing serials (the issuance result provably
ignores the batch table).  Two failure modes, both exhibited here:
a second issuance call 10000 ms after the first (clock frozen at 20000,
then at 30000), run on the state the first call produced, generates
exactly the same non-empty serial list; and even a single call emits
duplicate serials when the re-read wall clock steps backward by 1 ms after
the first iteration (readings 1001, 1000, 1000, …, so iterations 0 and 1
both use 1001). -/
theorem claim_C8_counterexample :
    ((issueCredits dbIssue "P1" 5 (fun _ => 20000)).2.projects = dbIssue.projects) ∧
    ((issueCredits (issueCredits dbIssue "P1" 5 (fun _ => 20000)).2 "P1" 5
        (fun _ => 30000)).1.serialNumbers =
      (issueCredits dbIssue "P1" 5 (fun _ => 30000)).1.serialNumbers) ∧
    ((issueCredits dbIssue "P1" 5 (fun _ => 20000)).1.serialNumbers =
      some clashSerials) ∧
    ((issueCredits dbIssue "P1" 5 (fun _ => 30000)).1.serialNumbers =
      some clashSerials) ∧
    clashSerials ≠ [] ∧
    ¬ ((((issueCredits dbIssue "P1" 5
        (fun i => if i = 0 then 1001 else 1000)).1.serialNumbers).getD []).Nodup) := by
  refine ⟨by decide, ?_, by decide, by decide, by decide, by decide⟩
  exact congrArg IssueResult.serialNumbers
    (issueCredits_fst_eq_of_projects_eq _ _ "P1" 5 (fun _ => 30000) (by decide))

/-- **C8 amended.** Serials are pairwise distinct within one `issueCredits`
call *provided the wall clock does not change during the call* (every
per-iteration `Date.now()` reading equal; the batch count never exceeds 5,
so the last decimal digits of `clock 0 + i` are then distinct).  The source
re-reads a non-monotonic clock each iteration, so without that proviso even
a single call can emit duplicates (backward clock step, or readings 10000 ms
apart — see the counterexample); across calls no uniqueness check exists
and collisions occur whenever the readings agree modulo 10000. -/
theorem claim_C8_amended (db : DB) (projectId : String) (quantity : Int)
    (clock : Nat → Nat) (serials : List String)
    (hclock : ∀ i, clock i = clock 0)
    (h : (issueCredits db projectId quantity clock).1.serialNumbers = some serials) :
    serials.Nodup := by
  cases hfp : findProject db projectId with
  | none =>
    simp only [issueCredits, hfp] at h
    simp at h
  | some project =>
    simp only [issueCredits, hfp, Option.some.injEq] at h
    subst h
    have hle : (min quantity 5).toNat ≤ 5 := by omega
    refine List.Nodup.map_on ?_ (List.nodup_range _)
    intro i hi j hj hij
    have hi5 : i < 5 := lt_of_lt_of_le (List.mem_range.mp hi) hle
    have hj5 : j < 5 := lt_of_lt_of_le (List.mem_range.mp hj) hle
    rw [hclock i, hclock j] at hij
    exact genSerial_inj_in_call projectId project.vintage (clock 0) i j hi5 hj5 hij

theorem claim_C8_amended_witness :
    (issueCredits dbIssue "P1" 5 (fun _ => 20000)).1.serialNumbers =
      some clashSerials ∧
    clashSerials.Nodup :=
  ⟨by decide,
   claim_C8_amended dbIssue "P1" 5 (fun _ => 20000) clashSerials
     (fun _ => rfl) (by decide)⟩

/-- **C2 counterexample.** `K = 100`, `Q = 100`, `N = 2` (so `Q > K/N`): the
claim demands exactly `⌊K/Q⌋ = 1` success and never-negative availability.
Because the availability check runs on the read value and the commit
decrements unconditionally in a separate step, the schedule
read·read·commit·commit lets both requests pass the check: two successes
and `availableCredits = −100`. -/
theorem claim_C2_counterexample :
    (runPurchases 100 (initState 100)
      [.read, .read, .commit, .commit]).successCount = 2 ∧
    (runPurchases 100 (initState 100)
      [.read, .read, .commit, .commit]).available = -100 := by
  decide

/-- **C2 amended.** The claimed outcome holds only when the requests are
serialized (each request's read immediately followed by its commit): with
`availableCredits = K ≥ 0`, `0 < Q`, and `N·Q > K`, exactly `⌊K/Q⌋`
requests succeed, the remaining `N − ⌊K/Q⌋` fail on the availability
check, and `availableCredits` ends at `K − Q·⌊K/Q⌋ ≥ 0`.  Under
unserialized interleavings the count and the non-negativity both fail
(see the counterexample). -/
theorem claim_C2_amended (n : Nat) (K Q : Int) (hQ : 0 < Q) (hK : 0 ≤ K)
    (hNQ : K < n * Q) :
    (runPurchases Q (initState K) (seqEvents n)).successCount = (K / Q).toNat ∧
    (runPurchases Q (initState K) (seqEvents n)).insufficientCount =
      n - (K / Q).toNat ∧
    (runPurchases Q (initState K) (seqEvents n)).available = K - Q * (K / Q) ∧
    0 ≤ (runPurchases Q (initState K) (seqEvents n)).available := by
  have hge : 0 ≤ K / Q := Int.ediv_nonneg hK hQ.le
  have hlt : K / Q < n := by
    rw [Int.ediv_lt_iff_lt_mul hQ]
    exact hNQ
  have hmin : min n (K / Q).toNat = (K / Q).toNat := by omega
  have hcast : ((K / Q).toNat : Int) = K / Q := Int.toNat_of_nonneg hge
  have hrun := runPurchases_seqEvents Q hQ n K 0 0 hK
  simp only [initState]
  rw [hrun, hmin]
  refine ⟨by simp, by simp, by rw [hcast], ?_⟩
  have hmod : K - Q * (K / Q) = K % Q := by
    rw [Int.emod_def]
  simp only [hcast, hmod]
  exact Int.emod_nonneg K (ne_of_gt hQ)

theorem claim_C2_amended_witness :
    ((0 : Int) < 60) ∧ ((0 : Int) ≤ 100) ∧ ((100 : Int) < (3 : Nat) * 60) ∧
    ((runPurchases 60 (initState 100) (seqEvents 3)).successCount =
        ((100 : Int) / 60).toNat ∧
      (runPurchases 60 (initState 100) (seqEvents 3)).insufficientCount =
        3 - ((100 : Int) / 60).toNat ∧
      (runPurchases 60 (initState 100) (seqEvents 3)).available =
        100 - 60 * ((100 : Int) / 60) ∧
      0 ≤ (runPurchases 60 (initState 100) (seqEvents 3)).available) :=
  ⟨by decide, by decide, by decide,
   claim_C2_amended 3 100 60 (by decide) (by decide) (by decide)⟩

/-- **C10.** For every description, every behaviour of the regex engine and
every random draws, the returned overall score and all six parameters are
integers (they live in `ℤ` by construction of the clamp-and-round) in the
range `[30, 95]`. -/
theorem claim_C10 (test : String → String → Bool) (rnd : Fin 6 → ℝ)
    (description : String) :
    (30 ≤ (calculateIntegrityScoreFromDescription test rnd description).score ∧
      (calculateIntegrityScoreFromDescription test rnd description).score ≤ 95) ∧
    (30 ≤ (calculateIntegrityScoreFromDescription test rnd description).parameters.additionality ∧
      (calculateIntegrityScoreFromDescription test rnd description).parameters.additionality ≤ 95) ∧
    (30 ≤ (calculateIntegrityScoreFromDescription test rnd description).parameters.permanence ∧
      (calculateIntegrityScoreFromDescription test rnd description).parameters.permanence ≤ 95) ∧
    (30 ≤ (calculateIntegrityScoreFromDescription test rnd description).parameters.mrv ∧
      (calculateIntegrityScoreFromDescription test rnd description).parameters.mrv ≤ 95) ∧
    (30 ≤ (calculateIntegrityScoreFromDescription test rnd description).parameters.leakage ∧
      (calculateIntegrityScoreFromDescription test rnd description).parameters.leakage ≤ 95) ∧
    (30 ≤ (calculateIntegrityScoreFromDescription test rnd description).parameters.registryQuality ∧
      (calculateIntegrityScoreFromDescription test rnd description).parameters.registryQuality ≤ 95) ∧
    (30 ≤ (calculateIntegrityScoreFromDescription test rnd description).parameters.correspondingAdjustment ∧
      (calculateIntegrityScoreFromDescription test rnd description).parameters.correspondingAdjustment ≤ 95) := by
  simp only [calculateIntegrityScoreFromDescription, clampAndRound, MIN_SCORE, MAX_SCORE]
  exact ⟨floor_clamp_bounds _, floor_clamp_bounds _, floor_clamp_bounds _,
    floor_clamp_bounds _, floor_clamp_bounds _, floor_clamp_bounds _,
    floor_clamp_bounds _⟩

end BCX
